import Mathlib

/-!
Verification of the cursor/focus-navigation core of the portfolio frontend.

The JavaScript sources are shallowly embedded:
* `lerp` — `frontend/js/utils.js` (the epsilon-snapping revision);
* `Position` — the smoothing position tracker (`Position.js`, revision with
  `currentPos`/`targetPos`/`easeFactor` and `update()` via `lerp`);
* `Focusable` — focusable region with identifier and rect-derived center
  (revision with `getIdentifier`, used by `InputManager.navigate`);
* `InputManager` — the current `frontend/js/classes/InputManager.js`
  (mouse snap/unsnap hysteresis, keyboard traversal, direct addressing);
* a second embedding `V1` of the earlier `InputManager` revision that
  emits the `modechange` event from `setMode`;
* `EventEmitter` — `frontend/js/classes/EventEmitter.js`.

JavaScript numbers are modelled as rationals (real-valued semantics of the
arithmetic in the source; floating-point rounding is not modelled).
`Math.hypot(dx,dy) < c` for `c ≥ 0` is equivalently `dx^2 + dy^2 < c^2`,
so all distance comparisons are carried out on squared distances, which
keeps every quantity rational.  Where a JavaScript handler throws, the
embedding returns an error result carrying the state as mutated up to the
throw.
-/

/-- 2-D point `{x, y}`. -/
structure Point where
  x : ℚ
  y : ℚ
deriving DecidableEq

/-- Default `epsilon` parameter of `lerp` (`epsilon = 0.0001` in utils.js). -/
def EPSILON : ℚ := 1 / 10000

/-- Source `Math.abs`, written so that the kernel can evaluate it. -/
def mathAbs (q : ℚ) : ℚ := if q < 0 then -q else q

/-- The function `mathAbs` agrees with the absolute value. -/
theorem mathAbs_eq_abs (q : ℚ) : mathAbs q = |q| := by
  unfold mathAbs
  split_ifs with h
  · exact (abs_of_neg h).symm
  · exact (abs_of_nonneg (not_lt.mp h)).symm

/-- Source `lerp(start, end, t, epsilon)` from utils.js:
`const result = start + t * (end - start);`
`if (Math.abs(result - end) < epsilon) return end; else return result;` -/
def lerp (start e t ε : ℚ) : ℚ :=
  if mathAbs (start + t * (e - start) - e) < ε then e
  else start + t * (e - start)

/-- The function `lerp` applied with its default `epsilon`, as at every call site. -/
def lerp3 (start e t : ℚ) : ℚ := lerp start e t EPSILON

/-- The `Position` class: `currentPos`, `targetPos` and the `easeFactor`
set to `0.2` by the constructor. -/
structure Position where
  currentPos : Point
  targetPos : Point
  easeFactor : ℚ
deriving DecidableEq

/-- Source `Position` constructor: both positions start at `initialPos`,
`easeFactor = 0.2`. -/
def Position.mk0 (initialPos : Point) : Position :=
  { currentPos := initialPos, targetPos := initialPos, easeFactor := 1 / 5 }

/-- Source `setTargetPosition(x, y)`. -/
def Position.setTargetPosition (p : Position) (x y : ℚ) : Position :=
  { p with targetPos := ⟨x, y⟩ }

/-- Source `Position.update()`: lerps each axis of `currentPos` toward `targetPos`
with factor `easeFactor` (and `lerp`'s default epsilon). -/
def Position.update (p : Position) : Position :=
  { p with currentPos :=
      ⟨lerp3 p.currentPos.x p.targetPos.x p.easeFactor,
       lerp3 p.currentPos.y p.targetPos.y p.easeFactor⟩ }

/-- Squared Euclidean distance; `Math.hypot(dx, dy) ⋈ c` with `c ≥ 0` is
equivalent to `distSq ⋈ c^2` for `⋈ ∈ {<, >, =}`. -/
def distSq (p q : Point) : ℚ :=
  (p.x - q.x) * (p.x - q.x) + (p.y - q.y) * (p.y - q.y)

example : lerp3 0 100 1 = 100 := by norm_num [lerp3, lerp, mathAbs, EPSILON]
example : lerp3 0 100 0 = 0 := by norm_num [lerp3, lerp, mathAbs, EPSILON]

/-- Layout box of a UI element (`getBoundingClientRect()`). -/
structure Rect where
  left : ℚ
  right : ℚ
  top : ℚ
  bottom : ℚ
deriving DecidableEq

/-- A `Focusable`: the element's layout box, the identifier assigned at
construction (`this.id = ID++`), and whether the element currently has the
`"focused"` CSS class (set by `classList.add`, cleared by `removeFocus`). -/
structure Focusable where
  id : Nat
  rect : Rect
  focused : Bool
deriving DecidableEq

/-- Source `Focusable.getPosition()`:
`x = lerp(rect.right, rect.left, 0.5); y = lerp(rect.top, rect.bottom, 0.5)`. -/
def Focusable.getPosition (f : Focusable) : Point :=
  ⟨lerp3 f.rect.right f.rect.left (1 / 2),
   lerp3 f.rect.top f.rect.bottom (1 / 2)⟩

/-- Source `Focusable.getIdentifier()` (stringified at the `navigate` call site). -/
def Focusable.getIdentifier (f : Focusable) : Nat := f.id

/-- First index satisfying a predicate (JavaScript `Array.findIndex`,
`-1` becomes `none`). -/
def findIndex (p : α → Bool) : List α → Option Nat
  | [] => none
  | a :: as => if p a then some 0 else (findIndex p as).map (· + 1)

theorem findIndex_lt_length {p : α → Bool} {l : List α} {i : Nat}
    (h : findIndex p l = some i) : i < l.length := by
  induction l generalizing i with
  | nil => simp [findIndex] at h
  | cons a as ih =>
    by_cases hp : p a
    · simp [findIndex, hp] at h
      simp [← h]
    · simp [findIndex, hp] at h
      obtain ⟨j, hj, rfl⟩ := h
      have := ih hj
      simpa [Nat.succ_lt_succ_iff] using this

/-- Replace the `focused` flag of the element at index `i`
(the JS mutation `focusable.element.classList.add/remove("focused")`
applied to the `i`-th member of the `focusables` array). -/
def setFlag : List Focusable → Nat → Bool → List Focusable
  | [], _, _ => []
  | f :: fs, 0, b => { f with focused := b } :: fs
  | f :: fs, n + 1, b => f :: setFlag fs n b

theorem setFlag_length (l : List Focusable) (i : Nat) (b : Bool) :
    (setFlag l i b).length = l.length := by
  induction l generalizing i with
  | nil => cases i <;> simp [setFlag]
  | cons f fs ih => cases i <;> simp [setFlag, ih]

theorem setFlag_map_focused (l : List Focusable) (i : Nat) (b : Bool) :
    (setFlag l i b).map (·.focused) = (l.map (·.focused)).set i b := by
  induction l generalizing i with
  | nil => cases i <;> simp [setFlag]
  | cons f fs ih => cases i <;> simp [setFlag, ih]

/-- State of the current `InputManager` together with the `Cursor` it owns.
`focusedElement` and `cursorFocused` hold the index into `focusables` of
the referenced `Focusable` object (the JS fields hold the object itself;
the array holds pairwise-distinct objects, so the index is its identity).
`cursorCur`/`cursorTarget` are the cursor's `Position` current/target. -/
structure IMState where
  mode : String
  currentIndex : Nat
  actualMouse : Point
  focusedElement : Option Nat
  focusables : List Focusable
  cursorCur : Point
  cursorTarget : Point
  cursorFocused : Option Nat
deriving DecidableEq

/-- Source `SNAP_DISTANCE = 24`. -/
def SNAP_DISTANCE : ℚ := 24

/-- Source `UNSNAP_DISTANCE = 36`. -/
def UNSNAP_DISTANCE : ℚ := 36

/-- Source `InputManager.setMode(mode)`: updates the field only when it changes
(the current revision merely `console.log`s the switch). -/
def setMode (st : IMState) (m : String) : IMState :=
  if st.mode ≠ m then { st with mode := m } else st

/-- Source `InputManager.clearFocus()`: if an element is focused, clear the
cursor's reference, remove its `"focused"` class (`removeFocus()`), run
the optional `onBlur` callback (absent on these instances, hence a no-op),
and null the reference. -/
def clearFocus (st : IMState) : IMState :=
  match st.focusedElement with
  | none => st
  | some j =>
      { st with cursorFocused := none,
                focusables := setFlag st.focusables j false,
                focusedElement := none }

/-- The second half of `InputManager.setFocusedElement`: store the
reference, add the `"focused"` class, run the optional `onFocus` callback
(a no-op here), hand the reference to the cursor, and sync `currentIndex`
to `focusables.indexOf(element)` — which is `i`, since the array members
are pairwise-distinct objects. -/
def markFocused (st : IMState) (i : Nat) : IMState :=
  { st with focusedElement := some i,
            focusables := setFlag st.focusables i true,
            cursorFocused := some i,
            currentIndex := i }

/-- Source `InputManager.setFocusedElement(element)`: clear the previous focus
first when a different element holds it, then mark the new one. -/
def setFocusedElement (st : IMState) (i : Nat) : IMState :=
  markFocused
    (if st.focusedElement.isSome ∧ st.focusedElement ≠ some i
     then clearFocus st else st) i

/-- Source `InputManager.getNearestFocusable(x, y)`: fold over `focusables`
keeping the strictly closest center so far (`minDist` starts at
`Infinity`, so the first element always wins against it; strict `<`
means earlier elements win ties). Distances squared, see `distSq`. -/
def getNearestFocusable (fs : List Focusable) (p : Point) : Option Point :=
  (fs.foldl
    (fun acc f =>
      match acc with
      | none => some (f.getPosition, distSq p f.getPosition)
      | some (c, d) =>
          if distSq p f.getPosition < d
          then some (f.getPosition, distSq p f.getPosition)
          else some (c, d))
    none).map (fun cd => cd.1)

/-- Source `InputManager.getFocusableAtPosition(position)`: first focusable whose
center is within `2` of `position` on both axes (else JS `null`). -/
def getFocusableAtPosition (fs : List Focusable) (pos : Point) : Option Nat :=
  findIndex
    (fun f => decide (mathAbs (f.getPosition.x - pos.x) < 2 ∧
                      mathAbs (f.getPosition.y - pos.y) < 2)) fs

/-- Tail of `InputManager.handleMouse` after the unsnap check: find the
nearest center, always retarget the cursor to the event position, then
snap when the smoothed cursor position (`this.cursor.getPosition()`) is
strictly within `SNAP_DISTANCE` of that center and the element found
there differs from the focused one. -/
def handleMouseRest (st : IMState) (p : Point) : IMState :=
  match getNearestFocusable st.focusables p with
  | none => { st with cursorTarget := p }
  | some c =>
      if distSq st.cursorCur c < SNAP_DISTANCE * SNAP_DISTANCE then
        match getFocusableAtPosition st.focusables c with
        | some i =>
            if st.focusedElement ≠ some i
            then setFocusedElement { st with cursorTarget := p } i
            else { st with cursorTarget := p }
        | none => { st with cursorTarget := p }
      else { st with cursorTarget := p }

/-- Source `InputManager.handleMouse(event)`: switch to mouse mode, record the
raw position, and if the event is strictly farther than
`UNSNAP_DISTANCE` from the focused element's center, clear focus,
retarget the cursor and return — without evaluating any snap. -/
def handleMouse (st : IMState) (p : Point) : IMState :=
  match ({ setMode st "mouse" with actualMouse := p } : IMState).focusedElement
  with
  | some j =>
      match ({ setMode st "mouse" with actualMouse := p } :
              IMState).focusables.get? j with
      | some f =>
          if UNSNAP_DISTANCE * UNSNAP_DISTANCE < distSq p f.getPosition then
            { clearFocus { setMode st "mouse" with actualMouse := p } with
                cursorTarget := p }
          else handleMouseRest { setMode st "mouse" with actualMouse := p } p
      | none => handleMouseRest { setMode st "mouse" with actualMouse := p } p
  | none => handleMouseRest { setMode st "mouse" with actualMouse := p } p

/-- Result of a keyboard dispatch: `err name st` models the handler
throwing a `TypeError`, with `st` the state as mutated before the throw
(the exception escapes the `keydown` listener; the page keeps running on
that state). -/
inductive NavResult where
  | ok (st : IMState)
  | err (name : String) (st : IMState)
deriving DecidableEq

/-- The state carried by a `NavResult`, whether or not it threw. -/
def NavResult.state : NavResult → IMState
  | .ok st => st
  | .err _ st => st

/-- Whether the dispatch threw. -/
def NavResult.isErr : NavResult → Bool
  | .ok _ => false
  | .err _ _ => true

/-- Source `InputManager.navigate(key)`.
* `"ArrowRight"`/`"Tab"`: `currentIndex = (currentIndex + 1) % N` then
  `setFocusedElement(focusables[currentIndex])`.  With `N = 0` the `%`
  yields `NaN`, `focusables[NaN]` is `undefined`, and
  `setFocusedElement(undefined)` runs its clear-previous branch, stores
  `undefined`, then throws `TypeError` at `undefined.element` (the NaN
  written to `currentIndex` is never observable afterwards: every later
  arrow key throws identically while `N = 0`).
* `"ArrowLeft"`: same with `(currentIndex - 1 + N) % N`; for `N ≥ 1` this
  integer value equals the natural number `(currentIndex + N - 1) % N`.
* any other key: build `ids = focusables.map(f => f.getIdentifier().toString())`,
  find the first matching index; on a match focus it, otherwise the code
  calls `this.removeFocus()` — a method that exists nowhere on
  `InputManager` (or its `EventEmitter` base), so it throws `TypeError`
  with the state unchanged. -/
def navigate (st : IMState) (key : String) : NavResult :=
  if key = "ArrowRight" ∨ key = "Tab" then
    match st.focusables.length with
    | 0 => .err "TypeError" { clearFocus st with focusedElement := none }
    | Nat.succ _ =>
        let i := (st.currentIndex + 1) % st.focusables.length
        .ok (setFocusedElement { st with currentIndex := i } i)
  else if key = "ArrowLeft" then
    match st.focusables.length with
    | 0 => .err "TypeError" { clearFocus st with focusedElement := none }
    | Nat.succ _ =>
        let i := (st.currentIndex + st.focusables.length - 1) %
                   st.focusables.length
        .ok (setFocusedElement { st with currentIndex := i } i)
  else
    match findIndex (fun s => s == key)
            (st.focusables.map (fun f => toString f.getIdentifier)) with
    | some i => .ok (setFocusedElement { st with currentIndex := i } i)
    | none => .err "TypeError" st

/-- Source `InputManager.handleInput(event)`: `Escape` clears focus and retargets
the cursor to the raw mouse position; anything else switches to keyboard
mode and navigates. -/
def handleInput (st : IMState) (key : String) : NavResult :=
  if key = "Escape" then
    let st1 := clearFocus st
    .ok { st1 with cursorTarget := st1.actualMouse }
  else
    navigate (setMode st "keyboard") key

/-- One per-frame cursor advance (`Cursor.update` → `Position.update`
with `easeFactor = 0.2`). -/
def cursorUpdate (st : IMState) : IMState :=
  { st with cursorCur :=
      ⟨lerp3 st.cursorCur.x st.cursorTarget.x (1 / 5),
       lerp3 st.cursorCur.y st.cursorTarget.y (1 / 5)⟩ }

/-- An input signal: a pointer move, a keydown, or an animation frame. -/
inductive Sig where
  | move (x y : ℚ)
  | key (k : String)
  | frame
deriving DecidableEq

/-- Dispatch one signal (a thrown `TypeError` leaves the pre-throw state). -/
def stepSignal (st : IMState) (s : Sig) : IMState :=
  match s with
  | .move x y => handleMouse st ⟨x, y⟩
  | .key k => (handleInput st k).state
  | .frame => cursorUpdate st

/-- Run a sequence of signals. -/
def runSigs (st : IMState) (l : List Sig) : IMState := l.foldl stepSignal st

/-- The state built at startup: `InputManager` constructor fields, a
cursor whose `Position` starts at the origin, and `Focusable` instances
that carry no `"focused"` class yet. -/
def mkInit (fs : List (Nat × Rect)) : IMState :=
  { mode := "mouse",
    currentIndex := 0,
    actualMouse := ⟨0, 0⟩,
    focusedElement := none,
    focusables := fs.map (fun nr => ⟨nr.1, nr.2, false⟩),
    cursorCur := ⟨0, 0⟩,
    cursorTarget := ⟨0, 0⟩,
    cursorFocused := none }

/-- Number of focusables currently carrying the `"focused"` class. -/
def countFocused (st : IMState) : Nat :=
  (st.focusables.map (·.focused)).count true

/-- The two targets of the hysteresis scenario: centers `(0,0)` and
`(100,0)` (boxes of width and height 20, so `getPosition` hits the
centers exactly). Target A is index 0, target B is index 1. -/
def fsC1 : List (Nat × Rect) :=
  [(0, ⟨-10, 10, -10, 10⟩), (1, ⟨90, 110, -10, 10⟩)]

/-- The center `getPosition` computes for the scenario's target A: `(0,0)`. -/
theorem getPosition_rectA (i : Nat) (b : Bool) :
    Focusable.getPosition ⟨i, ⟨-10, 10, -10, 10⟩, b⟩ = ⟨0, 0⟩ := by
  norm_num [Focusable.getPosition, lerp3, lerp, mathAbs, EPSILON]

/-- The center `getPosition` computes for the scenario's target B: `(100,0)`. -/
theorem getPosition_rectB (i : Nat) (b : Bool) :
    Focusable.getPosition ⟨i, ⟨90, 110, -10, 10⟩, b⟩ = ⟨100, 0⟩ := by
  norm_num [Focusable.getPosition, lerp3, lerp, mathAbs, EPSILON]

/-- C1: the spec's own simulation fails at its middle step: after the
pointer move to `(10,0)` target A is focused, but the subsequent move to
`(40,0)` — distance `40 > UNSNAP_DISTANCE = 36` from A's center — already
clears the focus, where the claim asserts A stays focused. -/
theorem hysteresis_claim_counterexample :
    (runSigs (mkInit fsC1) [.move 10 0]).focusedElement = some 0 ∧
    (runSigs (mkInit fsC1) [.move 10 0, .move 40 0]).focusedElement = none := by
  have h1 : stepSignal (mkInit fsC1) (.move 10 0) =
      { mode := "mouse", currentIndex := 0, actualMouse := ⟨10, 0⟩,
        focusedElement := some 0,
        focusables := [⟨0, ⟨-10, 10, -10, 10⟩, true⟩,
                       ⟨1, ⟨90, 110, -10, 10⟩, false⟩],
        cursorCur := ⟨0, 0⟩, cursorTarget := ⟨10, 0⟩,
        cursorFocused := some 0 } := by
    norm_num [stepSignal, handleMouse, handleMouseRest, setMode, clearFocus,
      setFocusedElement, markFocused, getNearestFocusable,
      getFocusableAtPosition, findIndex, setFlag, distSq, getPosition_rectA,
      getPosition_rectB, mathAbs, SNAP_DISTANCE, UNSNAP_DISTANCE, mkInit,
      fsC1]
    all_goals simp
  have h2 : stepSignal
      { mode := "mouse", currentIndex := 0, actualMouse := ⟨10, 0⟩,
        focusedElement := some 0,
        focusables := [⟨0, ⟨-10, 10, -10, 10⟩, true⟩,
                       ⟨1, ⟨90, 110, -10, 10⟩, false⟩],
        cursorCur := ⟨0, 0⟩, cursorTarget := ⟨10, 0⟩,
        cursorFocused := some 0 } (.move 40 0) =
      { mode := "mouse", currentIndex := 0, actualMouse := ⟨40, 0⟩,
        focusedElement := none,
        focusables := [⟨0, ⟨-10, 10, -10, 10⟩, false⟩,
                       ⟨1, ⟨90, 110, -10, 10⟩, false⟩],
        cursorCur := ⟨0, 0⟩, cursorTarget := ⟨40, 0⟩,
        cursorFocused := none } := by
    norm_num [stepSignal, handleMouse, handleMouseRest, setMode, clearFocus,
      setFocusedElement, markFocused, getNearestFocusable,
      getFocusableAtPosition, findIndex, setFlag, distSq, getPosition_rectA,
      getPosition_rectB, mathAbs, SNAP_DISTANCE, UNSNAP_DISTANCE]
  refine ⟨?_, ?_⟩
  · simp [runSigs, List.foldl, h1]
  · simp [runSigs, List.foldl, h1, h2]

/-- C1 (amended): hysteresis with a mid-point inside the staying band.
`(10,0)` snaps focus to A; `(30,0)` (distance 30, between the snap
threshold 24 and the unsnap threshold 36) leaves A focused with no
switch; `(90,0)` (distance `90 > 36`) clears focus in that step and the
handler returns without evaluating any snap, so no target is focused —
even though B's center is only 10 away from the pointer there. -/
theorem hysteresis_amended :
    (runSigs (mkInit fsC1) [.move 10 0]).focusedElement = some 0 ∧
    (runSigs (mkInit fsC1) [.move 10 0, .move 30 0]).focusedElement =
      some 0 ∧
    (runSigs (mkInit fsC1)
      [.move 10 0, .move 30 0, .move 90 0]).focusedElement = none := by
  have h1 : stepSignal (mkInit fsC1) (.move 10 0) =
      { mode := "mouse", currentIndex := 0, actualMouse := ⟨10, 0⟩,
        focusedElement := some 0,
        focusables := [⟨0, ⟨-10, 10, -10, 10⟩, true⟩,
                       ⟨1, ⟨90, 110, -10, 10⟩, false⟩],
        cursorCur := ⟨0, 0⟩, cursorTarget := ⟨10, 0⟩,
        cursorFocused := some 0 } := by
    norm_num [stepSignal, handleMouse, handleMouseRest, setMode, clearFocus,
      setFocusedElement, markFocused, getNearestFocusable,
      getFocusableAtPosition, findIndex, setFlag, distSq, getPosition_rectA,
      getPosition_rectB, mathAbs, SNAP_DISTANCE, UNSNAP_DISTANCE, mkInit,
      fsC1]
    all_goals simp
  have h2 : stepSignal
      { mode := "mouse", currentIndex := 0, actualMouse := ⟨10, 0⟩,
        focusedElement := some 0,
        focusables := [⟨0, ⟨-10, 10, -10, 10⟩, true⟩,
                       ⟨1, ⟨90, 110, -10, 10⟩, false⟩],
        cursorCur := ⟨0, 0⟩, cursorTarget := ⟨10, 0⟩,
        cursorFocused := some 0 } (.move 30 0) =
      { mode := "mouse", currentIndex := 0, actualMouse := ⟨30, 0⟩,
        focusedElement := some 0,
        focusables := [⟨0, ⟨-10, 10, -10, 10⟩, true⟩,
                       ⟨1, ⟨90, 110, -10, 10⟩, false⟩],
        cursorCur := ⟨0, 0⟩, cursorTarget := ⟨30, 0⟩,
        cursorFocused := some 0 } := by
    norm_num [stepSignal, handleMouse, handleMouseRest, setMode, clearFocus,
      setFocusedElement, markFocused, getNearestFocusable,
      getFocusableAtPosition, findIndex, setFlag, distSq, getPosition_rectA,
      getPosition_rectB, mathAbs, SNAP_DISTANCE, UNSNAP_DISTANCE]
  have h3 : stepSignal
      { mode := "mouse", currentIndex := 0, actualMouse := ⟨30, 0⟩,
        focusedElement := some 0,
        focusables := [⟨0, ⟨-10, 10, -10, 10⟩, true⟩,
                       ⟨1, ⟨90, 110, -10, 10⟩, false⟩],
        cursorCur := ⟨0, 0⟩, cursorTarget := ⟨30, 0⟩,
        cursorFocused := some 0 } (.move 90 0) =
      { mode := "mouse", currentIndex := 0, actualMouse := ⟨90, 0⟩,
        focusedElement := none,
        focusables := [⟨0, ⟨-10, 10, -10, 10⟩, false⟩,
                       ⟨1, ⟨90, 110, -10, 10⟩, false⟩],
        cursorCur := ⟨0, 0⟩, cursorTarget := ⟨90, 0⟩,
        cursorFocused := none } := by
    norm_num [stepSignal, handleMouse, handleMouseRest, setMode, clearFocus,
      setFocusedElement, markFocused, getNearestFocusable,
      getFocusableAtPosition, findIndex, setFlag, distSq, getPosition_rectA,
      getPosition_rectB, mathAbs, SNAP_DISTANCE, UNSNAP_DISTANCE]
  refine ⟨?_, ?_, ?_⟩
  · simp [runSigs, List.foldl, h1]
  · simp [runSigs, List.foldl, h1, h2]
  · simp [runSigs, List.foldl, h1, h2, h3]

/-- The focused-flag vector a well-formed state must exhibit: all `false`,
except a single `true` at the focused index. -/
def flagsFor (n : Nat) : Option Nat → List Bool
  | none => List.replicate n false
  | some j => (List.replicate n false).set j true

/-- The reachable-state invariant: the `"focused"` classes on the targets
mirror `focusedElement`, and the focused reference is a member of the
`focusables` array. -/
def FocusInv (st : IMState) : Prop :=
  st.focusables.map (·.focused) =
    flagsFor st.focusables.length st.focusedElement ∧
  ∀ j, st.focusedElement = some j → j < st.focusables.length

theorem replicate_set_false (n j : Nat) :
    (List.replicate n false).set j false = List.replicate n false := by
  induction n generalizing j with
  | zero => simp
  | succ n ih =>
    cases j <;> simp [List.replicate_succ, List.set, ih]

theorem count_true_replicate_set (n j : Nat) :
    ((List.replicate n false).set j true).count true ≤ 1 := by
  induction n generalizing j with
  | zero => simp
  | succ n ih =>
    cases j with
    | zero =>
      simp [List.replicate_succ, List.set, List.count_cons,
        List.count_replicate]
    | succ j =>
      simpa [List.replicate_succ, List.set, List.count_cons] using ih j

theorem inv_count {st : IMState} (h : FocusInv st) : countFocused st ≤ 1 := by
  unfold countFocused
  rw [h.1]
  cases st.focusedElement with
  | none => simp [flagsFor, List.count_replicate]
  | some j => exact count_true_replicate_set _ j

theorem clearFocus_fe (st : IMState) :
    (clearFocus st).focusedElement = none := by
  unfold clearFocus
  split
  · next hfe => exact hfe
  · rfl

theorem inv_clearFocus {st : IMState} (h : FocusInv st) : FocusInv (clearFocus st) := by
  unfold clearFocus
  cases hfe : st.focusedElement with
  | none => exact h
  | some j =>
    refine ⟨?_, by simp⟩
    have h1 := h.1
    rw [hfe] at h1
    simp only [setFlag_map_focused, setFlag_length, h1, flagsFor,
      List.set_set, replicate_set_false]

theorem inv_markFocused {st : IMState} {i : Nat} (h : FocusInv st)
    (hfe : st.focusedElement = none ∨ st.focusedElement = some i)
    (hi : i < st.focusables.length) : FocusInv (markFocused st i) := by
  refine ⟨?_, ?_⟩
  · show (setFlag st.focusables i true).map (·.focused) =
      flagsFor (setFlag st.focusables i true).length (some i)
    rw [setFlag_map_focused, setFlag_length, h.1]
    cases hfe with
    | inl hn => rw [hn]; simp [flagsFor]
    | inr hs => rw [hs]; simp [flagsFor, List.set_set]
  · intro j hj
    simp only [markFocused] at hj ⊢
    rw [setFlag_length]
    cases hj
    exact hi

theorem inv_setFocusedElement {st : IMState} {i : Nat} (h : FocusInv st)
    (hi : i < st.focusables.length) : FocusInv (setFocusedElement st i) := by
  unfold setFocusedElement
  split
  · next hc =>
    have hcl := inv_clearFocus h
    refine inv_markFocused hcl (Or.inl (clearFocus_fe st)) ?_
    unfold clearFocus
    split
    · exact hi
    · simpa [setFlag_length] using hi
  · next hc =>
    push_neg at hc
    cases hfe : st.focusedElement with
    | none => exact inv_markFocused h (Or.inl hfe) hi
    | some j =>
      have : st.focusedElement = some i := hc (by simp [hfe])
      exact inv_markFocused h (Or.inr this) hi

theorem getFocusableAtPosition_lt {fs : List Focusable} {pos : Point}
    {i : Nat} (h : getFocusableAtPosition fs pos = some i) : i < fs.length :=
  findIndex_lt_length (by simpa [getFocusableAtPosition] using h)

theorem inv_handleMouseRest {st : IMState} {p : Point} (h : FocusInv st) :
    FocusInv (handleMouseRest st p) := by
  unfold handleMouseRest
  split
  · exact h
  · split
    · split
      · next i heq =>
        split
        · exact inv_setFocusedElement h (getFocusableAtPosition_lt heq)
        · exact h
      · exact h
    · exact h

theorem inv_setMode {st : IMState} {m : String} (h : FocusInv st) :
    FocusInv (setMode st m) := by
  unfold setMode
  split <;> exact h

theorem inv_handleMouse {st : IMState} {p : Point} (h : FocusInv st) :
    FocusInv (handleMouse st p) := by
  unfold handleMouse
  have h1 : FocusInv { setMode st "mouse" with actualMouse := p } :=
    inv_setMode (m := "mouse") h
  split
  · split
    · split
      · exact inv_clearFocus h1
      · exact inv_handleMouseRest h1
    · exact inv_handleMouseRest h1
  · exact inv_handleMouseRest h1

theorem inv_navigate {st : IMState} {k : String} (h : FocusInv st) :
    FocusInv (navigate st k).state := by
  unfold navigate
  split
  · split
    · next hlen =>
      have hc := inv_clearFocus h
      refine ⟨?_, by simp [NavResult.state]⟩
      have h1 := hc.1
      rw [clearFocus_fe] at h1
      exact h1
    · next n hlen =>
      refine inv_setFocusedElement h ?_
      exact Nat.mod_lt _ (by omega)
  · split
    · split
      · next hlen =>
        have hc := inv_clearFocus h
        refine ⟨?_, by simp [NavResult.state]⟩
        have h1 := hc.1
        rw [clearFocus_fe] at h1
        exact h1
      · next n hlen =>
        refine inv_setFocusedElement h ?_
        exact Nat.mod_lt _ (by omega)
    · split
      · next i heq =>
        refine inv_setFocusedElement h ?_
        have := findIndex_lt_length heq
        simpa using this
      · exact h

theorem inv_handleInput {st : IMState} {k : String} (h : FocusInv st) :
    FocusInv (handleInput st k).state := by
  unfold handleInput
  split
  · exact inv_clearFocus h
  · exact inv_navigate (inv_setMode h)

theorem inv_stepSignal {st : IMState} {s : Sig} (h : FocusInv st) :
    FocusInv (stepSignal st s) := by
  cases s with
  | move x y => exact inv_handleMouse h
  | key k => exact inv_handleInput h
  | frame => exact h

theorem inv_runSigs {st : IMState} (h : FocusInv st) (l : List Sig) :
    FocusInv (runSigs st l) := by
  induction l generalizing st with
  | nil => exact h
  | cons s l ih => exact ih (inv_stepSignal h)

theorem inv_mkInit (fs : List (Nat × Rect)) : FocusInv (mkInit fs) := by
  refine ⟨?_, by simp [mkInit]⟩
  show (fs.map (fun nr => (⟨nr.1, nr.2, false⟩ : Focusable))).map (·.focused) =
    flagsFor (fs.map (fun nr => (⟨nr.1, nr.2, false⟩ : Focusable))).length none
  simp only [List.map_map, flagsFor, List.length_map]
  apply List.eq_replicate_iff.mpr
  refine ⟨by simp, ?_⟩
  intro b hb
  rw [List.mem_map] at hb
  obtain ⟨x, _hx, hfb⟩ := hb
  exact hfb.symm

/-- C2: (a) starting from the constructor state, any sequence of pointer
moves, key presses and animation frames leaves at most one `Focusable`
with the `"focused"` visual class; (b) whenever focus moves to an element
that is not the currently focused one, `setFocusedElement` is exactly the
blur procedure (`clearFocus`: remove the class, clear the cursor's
reference, blur callback) followed by marking the new element focused —
blur-before-focus. -/
theorem at_most_one_focused :
    (∀ (fs : List (Nat × Rect)) (sigs : List Sig),
        countFocused (runSigs (mkInit fs) sigs) ≤ 1) ∧
    (∀ (st : IMState) (i : Nat), st.focusedElement ≠ some i →
        setFocusedElement st i = markFocused (clearFocus st) i) := by
  constructor
  · intro fs sigs
    exact inv_count (inv_runSigs (inv_mkInit fs) sigs)
  · intro st i hne
    unfold setFocusedElement
    cases hfe : st.focusedElement with
    | none =>
      rw [if_neg (by simp [hfe])]
      unfold clearFocus
      rw [hfe]
    | some j =>
      rw [if_pos (by simp [hfe]; exact fun h => hne (hfe ▸ h ▸ rfl))]

/-- Witness for C2 at concrete inputs: the hysteresis scenario list with a
pointer snap followed by keyboard traversal, and a concrete
blur-before-focus factoring. -/
theorem at_most_one_focused_witness :
    countFocused (runSigs (mkInit fsC1)
      [.move 10 0, .key "ArrowRight", .frame, .key "Escape"]) ≤ 1 ∧
    setFocusedElement (mkInit fsC1) 0 =
      markFocused (clearFocus (mkInit fsC1)) 0 :=
  ⟨at_most_one_focused.1 fsC1 [.move 10 0, .key "ArrowRight", .frame,
      .key "Escape"],
   at_most_one_focused.2 (mkInit fsC1) 0 (by simp [mkInit])⟩

theorem setMode_focusables (st : IMState) (m : String) :
    (setMode st m).focusables = st.focusables := by
  unfold setMode
  split <;> rfl

theorem setMode_currentIndex (st : IMState) (m : String) :
    (setMode st m).currentIndex = st.currentIndex := by
  unfold setMode
  split <;> rfl

theorem setMode_focusedElement (st : IMState) (m : String) :
    (setMode st m).focusedElement = st.focusedElement := by
  unfold setMode
  split <;> rfl

theorem setFocusedElement_currentIndex (st : IMState) (i : Nat) :
    (setFocusedElement st i).currentIndex = i := rfl

theorem setFocusedElement_focusedElement (st : IMState) (i : Nat) :
    (setFocusedElement st i).focusedElement = some i := rfl

/-- C3: the claimed guard does not exist.  With zero focusables a "next"
signal computes `(0 + 1) % 0 = NaN`, indexes `focusables[NaN] =
undefined`, and `setFocusedElement(undefined)` throws `TypeError` — the
navigation signal does not complete without raising an error. -/
theorem empty_targets_claim_counterexample :
    (handleInput (mkInit []) "ArrowRight").isErr = true := by
  simp [handleInput, navigate, setMode, mkInit, NavResult.isErr]

/-- C3 (amended): with zero focusables and no focused target, the escape
signal alone is a safe no-op (no error, focus stays `none`); every other
keyboard signal throws a `TypeError` (`undefined.element` for
next/previous, the nonexistent `this.removeFocus` for direct addressing)
and still leaves the focused target as `none`. -/
theorem empty_targets_amended (st : IMState)
    (h1 : st.focusables = []) (h2 : st.focusedElement = none) :
    ((handleInput st "Escape").isErr = false ∧
     (handleInput st "Escape").state.focusedElement = none) ∧
    ∀ k : String, k ≠ "Escape" →
      (handleInput st k).isErr = true ∧
      (handleInput st k).state.focusedElement = none := by
  constructor
  · unfold handleInput
    rw [if_pos rfl]
    refine ⟨rfl, ?_⟩
    show (clearFocus st).focusedElement = none
    exact clearFocus_fe st
  · intro k hk
    unfold handleInput
    rw [if_neg hk]
    have hsf : (setMode st "keyboard").focusables = [] := by
      rw [setMode_focusables, h1]
    have hse : (setMode st "keyboard").focusedElement = none := by
      rw [setMode_focusedElement, h2]
    unfold navigate
    by_cases hk1 : k = "ArrowRight" ∨ k = "Tab"
    · rw [if_pos hk1, hsf]
      exact ⟨rfl, rfl⟩
    · rw [if_neg hk1]
      by_cases hk2 : k = "ArrowLeft"
      · rw [if_pos hk2, hsf]
        exact ⟨rfl, rfl⟩
      · rw [if_neg hk2, hsf]
        exact ⟨rfl, hse⟩

/-- Witness for C3 (amended) at the concrete startup state with zero
focusables and the concrete signal `"ArrowRight"`. -/
theorem empty_targets_amended_witness :
    (handleInput (mkInit []) "ArrowRight").isErr = true ∧
    (handleInput (mkInit []) "ArrowRight").state.focusedElement = none :=
  (empty_targets_amended (mkInit []) rfl rfl).2 "ArrowRight" (by simp)

/-- Identifier strings of small numerals, as `navigate` builds them. -/
theorem toString_nat_zero : toString (0 : Nat) = "0" := rfl

theorem toString_nat_one : toString (1 : Nat) = "1" := rfl

theorem toString_nat_two : toString (2 : Nat) = "2" := rfl

/-- Three focusables with identifiers `0`, `1`, `2` (boxes irrelevant to
keyboard navigation). -/
def fsC4 : List (Nat × Rect) :=
  [(0, ⟨0, 0, 0, 0⟩), (1, ⟨0, 0, 0, 0⟩), (2, ⟨0, 0, 0, 0⟩)]

/-- The C4 start state: `currentIndex = 2` (so the direct-address test is
independent of the current index). -/
def stC4 : IMState := { mkInit fsC4 with currentIndex := 2 }

/-- C4: with identifiers `"0","1","2"` a keyboard signal `"1"` does focus
the target with that identifier regardless of the current index — but a
signal `"9"` matching no identifier is NOT a no-op: `findIndexById`
returns `0`, and the code calls `this.removeFocus()`, a method that does
not exist on `InputManager`, so the handler throws a `TypeError` (having
already switched the mode to keyboard, changing nothing else). -/
theorem direct_address_removeFocus_bug :
    (handleInput stC4 "1").isErr = false ∧
    (handleInput stC4 "1").state.focusedElement = some 1 ∧
    (handleInput stC4 "1").state.currentIndex = 1 ∧
    (handleInput stC4 "9").isErr = true ∧
    (handleInput stC4 "9").state = setMode stC4 "keyboard" := by
  refine ⟨?_, ?_, ?_, ?_, ?_⟩ <;>
    simp [handleInput, navigate, setMode, stC4, mkInit, fsC4, findIndex,
      Focusable.getIdentifier, toString_nat_zero, toString_nat_one,
      toString_nat_two, NavResult.isErr, NavResult.state,
      setFocusedElement, markFocused, clearFocus, setFlag]

/-- C5: keyboard traversal wraps modularly.  For any state with `N > 0`
targets, `"ArrowRight"`/`"Tab"` succeed and set `currentIndex` to
`(currentIndex + 1) % N`, focusing the target at that index, and
`"ArrowLeft"` sets it to `(currentIndex - 1 + N) % N` (written over `ℕ`
as `(currentIndex + N - 1) % N`, the same integer since `N ≥ 1`),
focusing the target at that index. -/
theorem keyboard_wrap (st : IMState) (hN : 0 < st.focusables.length) :
    ((handleInput st "ArrowRight").isErr = false ∧
     (handleInput st "ArrowRight").state.currentIndex =
       (st.currentIndex + 1) % st.focusables.length ∧
     (handleInput st "ArrowRight").state.focusedElement =
       some ((st.currentIndex + 1) % st.focusables.length)) ∧
    ((handleInput st "Tab").isErr = false ∧
     (handleInput st "Tab").state.currentIndex =
       (st.currentIndex + 1) % st.focusables.length ∧
     (handleInput st "Tab").state.focusedElement =
       some ((st.currentIndex + 1) % st.focusables.length)) ∧
    ((handleInput st "ArrowLeft").isErr = false ∧
     (handleInput st "ArrowLeft").state.currentIndex =
       (st.currentIndex + st.focusables.length - 1) %
         st.focusables.length ∧
     (handleInput st "ArrowLeft").state.focusedElement =
       some ((st.currentIndex + st.focusables.length - 1) %
         st.focusables.length)) := by
  cases hl : st.focusables with
  | nil => rw [hl] at hN; simp at hN
  | cons f fs =>
    refine ⟨?_, ?_, ?_⟩ <;>
    · unfold handleInput navigate
      rw [if_neg (by simp)]
      simp only [setMode_focusables, setMode_currentIndex, hl,
        List.length_cons]
      simp [NavResult.isErr, NavResult.state,
        setFocusedElement_currentIndex, setFocusedElement_focusedElement]

/-- The C5 wrap-around example: three targets. -/
def fsC5 : List (Nat × Rect) :=
  [(0, ⟨0, 0, 0, 0⟩), (1, ⟨0, 0, 0, 0⟩), (2, ⟨0, 0, 0, 0⟩)]

/-- Startup state over `fsC5` with `currentIndex = 2`. -/
def stC5 : IMState := { mkInit fsC5 with currentIndex := 2 }

/-- Witness for C5: with 3 targets, "next" from index 2 wraps to 0 and
"previous" from index 0 wraps to 2. -/
theorem keyboard_wrap_witness :
    (handleInput stC5 "ArrowRight").state.currentIndex = 0 ∧
    (handleInput (mkInit fsC5) "ArrowLeft").state.currentIndex = 2 := by
  constructor
  · have h := (keyboard_wrap stC5 (by simp [stC5, mkInit, fsC5])).1.2.1
    simpa [stC5, mkInit, fsC5] using h
  · have h := (keyboard_wrap (mkInit fsC5)
      (by simp [mkInit, fsC5])).2.2.2.1
    simpa [mkInit, fsC5] using h

theorem Point.ext' {a b : Point} (hx : a.x = b.x) (hy : a.y = b.y) :
    a = b := by
  cases a
  cases b
  simp_all

theorem EPSILON_pos : 0 < EPSILON := by norm_num [EPSILON]

theorem mathAbs_nonneg (q : ℚ) : 0 ≤ mathAbs q := by
  rw [mathAbs_eq_abs]
  exact abs_nonneg q

/-- One axis of `Position.update` as a function of the current value:
`lerp(current, target, easeFactor)`. -/
def step1 (e τ c : ℚ) : ℚ := lerp c e τ EPSILON

/-- The residual map induced by `step1` on `target - current`: it either
shrinks the residual by the factor `1 - τ` or — once within `EPSILON` —
snaps it to `0`. -/
def rstep (τ r : ℚ) : ℚ :=
  if (1 - τ) * mathAbs r < EPSILON then 0 else (1 - τ) * r

theorem step_residual {τ : ℚ} (h1 : τ < 1) (e c : ℚ) :
    e - step1 e τ c = rstep τ (e - c) := by
  unfold step1 lerp rstep
  have key : mathAbs (c + τ * (e - c) - e) = (1 - τ) * mathAbs (e - c) := by
    rw [mathAbs_eq_abs, mathAbs_eq_abs,
      show c + τ * (e - c) - e = -((1 - τ) * (e - c)) by ring, abs_neg,
      abs_mul, abs_of_nonneg (by linarith : (0 : ℚ) ≤ 1 - τ)]
  rw [key]
  split_ifs
  · ring
  · ring

theorem rstep_abs_le {τ : ℚ} (h0 : 0 ≤ τ) (h1 : τ < 1) (r : ℚ) :
    mathAbs (rstep τ r) ≤ (1 - τ) * mathAbs r := by
  unfold rstep
  split_ifs
  · simpa [mathAbs] using
      mul_nonneg (by linarith : (0 : ℚ) ≤ 1 - τ) (mathAbs_nonneg r)
  · rw [mathAbs_eq_abs, mathAbs_eq_abs, abs_mul,
      abs_of_nonneg (by linarith : (0 : ℚ) ≤ 1 - τ)]

theorem rstep_iter_abs_le {τ : ℚ} (h0 : 0 ≤ τ) (h1 : τ < 1) (r : ℚ) :
    ∀ k, mathAbs ((rstep τ)^[k] r) ≤ (1 - τ) ^ k * mathAbs r := by
  intro k
  induction k with
  | zero => simp
  | succ k ih =>
    rw [Function.iterate_succ_apply']
    calc mathAbs (rstep τ ((rstep τ)^[k] r))
        ≤ (1 - τ) * mathAbs ((rstep τ)^[k] r) := rstep_abs_le h0 h1 _
      _ ≤ (1 - τ) * ((1 - τ) ^ k * mathAbs r) :=
          mul_le_mul_of_nonneg_left ih (by linarith)
      _ = (1 - τ) ^ (k + 1) * mathAbs r := by ring

theorem rstep_zero (τ : ℚ) : rstep τ 0 = 0 := by
  unfold rstep
  split_ifs <;> simp

theorem rstep_iter_sign {τ : ℚ} (h1 : τ < 1) (r : ℚ) :
    ∀ k, 0 ≤ (rstep τ)^[k] r * r := by
  intro k
  induction k with
  | zero => simpa using mul_self_nonneg r
  | succ k ih =>
    rw [Function.iterate_succ_apply']
    unfold rstep
    split_ifs
    · simp
    · calc (0 : ℚ) ≤ (1 - τ) * ((rstep τ)^[k] r * r) :=
            mul_nonneg (by linarith) ih
        _ = (1 - τ) * (rstep τ)^[k] r * r := by ring

theorem rstep_iter_eventually {τ : ℚ} (h0 : 0 < τ) (h1 : τ < 1) (r : ℚ) :
    ∃ N, ∀ k, N ≤ k → (rstep τ)^[k] r = 0 := by
  have hra : (0 : ℚ) < mathAbs r + 1 := by
    have := mathAbs_nonneg r
    linarith
  obtain ⟨n, hn⟩ := exists_pow_lt_of_lt_one
    (div_pos EPSILON_pos hra) (by linarith : 1 - τ < 1)
  have hpow : (1 - τ) ^ n * mathAbs r < EPSILON := by
    have h2 : (1 - τ) ^ n * (mathAbs r + 1) < EPSILON :=
      (lt_div_iff hra).mp hn
    have h3 : (1 - τ) ^ n * mathAbs r ≤ (1 - τ) ^ n * (mathAbs r + 1) :=
      mul_le_mul_of_nonneg_left (by linarith)
        (pow_nonneg (by linarith) n)
    linarith
  have hsnap : (rstep τ)^[n + 1] r = 0 := by
    rw [Function.iterate_succ_apply']
    unfold rstep
    rw [if_pos]
    calc (1 - τ) * mathAbs ((rstep τ)^[n] r)
        ≤ mathAbs ((rstep τ)^[n] r) :=
          mul_le_of_le_one_left (mathAbs_nonneg _) (by linarith)
      _ ≤ (1 - τ) ^ n * mathAbs r := rstep_iter_abs_le h0.le h1 r n
      _ < EPSILON := hpow
  refine ⟨n + 1, fun k hk => ?_⟩
  obtain ⟨m, rfl⟩ : ∃ m, k = m + (n + 1) := ⟨k - (n + 1), by omega⟩
  rw [Function.iterate_add_apply, hsnap,
    Function.iterate_fixed (rstep_zero τ) m]

theorem update_iter_targetPos (p : Position) (k : Nat) :
    (Position.update^[k] p).targetPos = p.targetPos := by
  induction k with
  | zero => rfl
  | succ k ih => rw [Function.iterate_succ_apply']; exact ih

theorem update_iter_easeFactor (p : Position) (k : Nat) :
    (Position.update^[k] p).easeFactor = p.easeFactor := by
  induction k with
  | zero => rfl
  | succ k ih => rw [Function.iterate_succ_apply']; exact ih

theorem update_iter_x (p : Position) (k : Nat) :
    (Position.update^[k] p).currentPos.x =
      (fun c => step1 p.targetPos.x p.easeFactor c)^[k] p.currentPos.x := by
  induction k with
  | zero => rfl
  | succ k ih =>
    rw [Function.iterate_succ_apply', Function.iterate_succ_apply', ← ih]
    show lerp3 (Position.update^[k] p).currentPos.x
        (Position.update^[k] p).targetPos.x
        (Position.update^[k] p).easeFactor =
      step1 p.targetPos.x p.easeFactor (Position.update^[k] p).currentPos.x
    rw [update_iter_targetPos, update_iter_easeFactor]
    rfl

theorem update_iter_y (p : Position) (k : Nat) :
    (Position.update^[k] p).currentPos.y =
      (fun c => step1 p.targetPos.y p.easeFactor c)^[k] p.currentPos.y := by
  induction k with
  | zero => rfl
  | succ k ih =>
    rw [Function.iterate_succ_apply', Function.iterate_succ_apply', ← ih]
    show lerp3 (Position.update^[k] p).currentPos.y
        (Position.update^[k] p).targetPos.y
        (Position.update^[k] p).easeFactor =
      step1 p.targetPos.y p.easeFactor (Position.update^[k] p).currentPos.y
    rw [update_iter_targetPos, update_iter_easeFactor]
    rfl

theorem residual_iter {τ : ℚ} (h1 : τ < 1) (e c0 : ℚ) (k : Nat) :
    e - (fun c => step1 e τ c)^[k] c0 = (rstep τ)^[k] (e - c0) := by
  induction k with
  | zero => rfl
  | succ k ih =>
    rw [Function.iterate_succ_apply', Function.iterate_succ_apply', ← ih,
      step_residual h1]

/-- C6: for a fixed target and any `easeFactor` strictly between 0 and 1,
repeated `Position.update` calls reach the target exactly after finitely
many iterations (the bound exists because the residual shrinks
geometrically until the `EPSILON` snap of `lerp` fires), and at no step
does the current position pass beyond the target on either axis (the
residual `target − current` never changes sign). -/
theorem position_update_converges (p : Position)
    (h0 : 0 < p.easeFactor) (h1 : p.easeFactor < 1) :
    (∃ N, ∀ k, N ≤ k →
        (Position.update^[k] p).currentPos = p.targetPos) ∧
    (∀ k,
        0 ≤ (p.targetPos.x - (Position.update^[k] p).currentPos.x) *
              (p.targetPos.x - p.currentPos.x) ∧
        0 ≤ (p.targetPos.y - (Position.update^[k] p).currentPos.y) *
              (p.targetPos.y - p.currentPos.y)) := by
  constructor
  · obtain ⟨Nx, hNx⟩ := rstep_iter_eventually h0 h1
      (p.targetPos.x - p.currentPos.x)
    obtain ⟨Ny, hNy⟩ := rstep_iter_eventually h0 h1
      (p.targetPos.y - p.currentPos.y)
    refine ⟨max Nx Ny, fun k hk => ?_⟩
    have hx : p.targetPos.x - (Position.update^[k] p).currentPos.x = 0 := by
      rw [update_iter_x, residual_iter h1]
      exact hNx k (le_trans (le_max_left _ _) hk)
    have hy : p.targetPos.y - (Position.update^[k] p).currentPos.y = 0 := by
      rw [update_iter_y, residual_iter h1]
      exact hNy k (le_trans (le_max_right _ _) hk)
    exact Point.ext' (by linarith) (by linarith)
  · intro k
    constructor
    · rw [update_iter_x, residual_iter h1]
      exact rstep_iter_sign h1 _ k
    · rw [update_iter_y, residual_iter h1]
      exact rstep_iter_sign h1 _ k

/-- A concrete tracker: current `(0,0)`, target `(1,0)`, the constructor's
`easeFactor = 0.2`. -/
def pC6 : Position := { currentPos := ⟨0, 0⟩, targetPos := ⟨1, 0⟩,
                        easeFactor := 1 / 5 }

/-- Witness for C6 at the concrete tracker `pC6`. -/
theorem position_update_converges_witness :
    (∃ N, ∀ k, N ≤ k →
        (Position.update^[k] pC6).currentPos = pC6.targetPos) ∧
    (0 ≤ (pC6.targetPos.x - (Position.update^[3] pC6).currentPos.x) *
           (pC6.targetPos.x - pC6.currentPos.x) ∧
     0 ≤ (pC6.targetPos.y - (Position.update^[3] pC6).currentPos.y) *
           (pC6.targetPos.y - pC6.currentPos.y)) :=
  ⟨(position_update_converges pC6 (by norm_num [pC6])
      (by norm_num [pC6])).1,
   (position_update_converges pC6 (by norm_num [pC6])
      (by norm_num [pC6])).2 3⟩

/-- C7: the "`lerp(s, e, 0) == s`" part of the claim is false: with
`s = 0`, `e = 1/20000` the raw blend at `t = 0` is `s = 0`, which lies
within `epsilon = 1/10000` of `e`, so `lerp` snaps and returns
`e = 1/20000 ≠ 0 = s`. -/
theorem lerp_zero_claim_counterexample :
    lerp3 0 (1 / 20000) 0 = 1 / 20000 ∧ (1 / 20000 : ℚ) ≠ 0 := by
  constructor
  · norm_num [lerp3, lerp, mathAbs, EPSILON]
  · norm_num

/-- C7 (amended): `lerp` returns the affine blend
`start + t * (end - start)` except when that raw result lies strictly
within `epsilon` of `end`, in which case it returns exactly `end`;
`lerp(s, e, 1) = e` always; and `lerp(s, e, 0) = s` holds exactly when
`s` is at least `epsilon` away from `e` (otherwise it returns `e`). -/
theorem lerp_contract (s e t : ℚ) :
    (mathAbs (s + t * (e - s) - e) < EPSILON → lerp3 s e t = e) ∧
    (EPSILON ≤ mathAbs (s + t * (e - s) - e) →
        lerp3 s e t = s + t * (e - s)) ∧
    lerp3 s e 1 = e ∧
    (EPSILON ≤ mathAbs (s - e) → lerp3 s e 0 = s) := by
  refine ⟨?_, ?_, ?_, ?_⟩
  · intro h
    unfold lerp3 lerp
    rw [if_pos h]
  · intro h
    unfold lerp3 lerp
    rw [if_neg (not_lt.mpr h)]
  · unfold lerp3 lerp
    rw [show s + 1 * (e - s) - e = 0 by ring,
      if_pos (by norm_num [mathAbs, EPSILON])]
  · intro h
    unfold lerp3 lerp
    rw [show s + 0 * (e - s) - e = s - e by ring,
      if_neg (not_lt.mpr h)]
    ring

/-- Witness for C7 (amended) at concrete inputs. -/
theorem lerp_contract_witness :
    lerp3 5 100 1 = 100 ∧ lerp3 5 100 0 = 5 :=
  ⟨(lerp_contract 5 100 1).2.2.1,
   (lerp_contract 5 100 0).2.2.2 (by norm_num [mathAbs, EPSILON])⟩

/-- C9: "no epsilon-snap effect, for all box sizes" is false.  For the
degenerate box `left = top = 0`, `right = bottom = 1/10000` the raw
midpoints `1/20000` lie within `epsilon` of the lerp endpoints, so
`getPosition` snaps: it returns `(0, 1/10000)` (the `left` edge on x, the
`bottom` edge on y), while the arithmetic midpoint is
`(1/20000, 1/20000)`. -/
theorem getPosition_midpoint_counterexample :
    Focusable.getPosition ⟨0, ⟨0, 1 / 10000, 0, 1 / 10000⟩, false⟩ =
      ⟨0, 1 / 10000⟩ ∧
    ((0 : ℚ) + 1 / 10000) / 2 ≠ 0 ∧
    ((0 : ℚ) + 1 / 10000) / 2 ≠ 1 / 10000 := by
  refine ⟨?_, by norm_num, by norm_num⟩
  norm_num [Focusable.getPosition, lerp3, lerp, mathAbs, EPSILON]

/-- C9 (amended): `getPosition` equals the arithmetic midpoint
`((left+right)/2, (top+bottom)/2)` for every box whose width and height
are each either zero or at least `2 * epsilon = 0.0002` pixels; only for
degenerate boxes strictly between those extents does the `lerp` snap pull
the center to the `left`/`bottom` edge. -/
theorem getPosition_midpoint (f : Focusable)
    (hw : 2 * EPSILON ≤ mathAbs (f.rect.right - f.rect.left) ∨
          f.rect.left = f.rect.right)
    (hh : 2 * EPSILON ≤ mathAbs (f.rect.top - f.rect.bottom) ∨
          f.rect.top = f.rect.bottom) :
    f.getPosition = ⟨(f.rect.left + f.rect.right) / 2,
                     (f.rect.top + f.rect.bottom) / 2⟩ := by
  apply Point.ext'
  · show lerp3 f.rect.right f.rect.left (1 / 2) =
      (f.rect.left + f.rect.right) / 2
    unfold lerp3 lerp
    rcases hw with hw | hw
    · rw [if_neg, show f.rect.right + 1 / 2 * (f.rect.left - f.rect.right) =
            (f.rect.left + f.rect.right) / 2 by ring]
      rw [not_lt, show f.rect.right + 1 / 2 * (f.rect.left - f.rect.right) -
            f.rect.left = (f.rect.right - f.rect.left) / 2 by ring,
        mathAbs_eq_abs, abs_div]
      rw [mathAbs_eq_abs] at hw
      rw [show |(2 : ℚ)| = 2 by norm_num]
      linarith
    · rw [hw, show f.rect.right + 1 / 2 * (f.rect.right - f.rect.right) -
            f.rect.right = 0 by ring]
      rw [if_pos (by norm_num [mathAbs, EPSILON])]
      ring
  · show lerp3 f.rect.top f.rect.bottom (1 / 2) =
      (f.rect.top + f.rect.bottom) / 2
    unfold lerp3 lerp
    rcases hh with hh | hh
    · rw [if_neg, show f.rect.top + 1 / 2 * (f.rect.bottom - f.rect.top) =
            (f.rect.top + f.rect.bottom) / 2 by ring]
      rw [not_lt, show f.rect.top + 1 / 2 * (f.rect.bottom - f.rect.top) -
            f.rect.bottom = (f.rect.top - f.rect.bottom) / 2 by ring,
        mathAbs_eq_abs, abs_div]
      rw [mathAbs_eq_abs] at hh
      rw [show |(2 : ℚ)| = 2 by norm_num]
      linarith
    · rw [hh, show f.rect.bottom + 1 / 2 * (f.rect.bottom - f.rect.bottom) -
            f.rect.bottom = 0 by ring]
      rw [if_pos (by norm_num [mathAbs, EPSILON])]
      ring

/-- Witness for C9 (amended) on a 20×20 box centered at the origin. -/
theorem getPosition_midpoint_witness :
    Focusable.getPosition ⟨0, ⟨-10, 10, -10, 10⟩, false⟩ =
      ⟨((-10 : ℚ) + 10) / 2, ((-10 : ℚ) + 10) / 2⟩ :=
  getPosition_midpoint ⟨0, ⟨-10, 10, -10, 10⟩, false⟩
    (Or.inl (by norm_num [mathAbs, EPSILON]))
    (Or.inl (by norm_num [mathAbs, EPSILON]))

namespace V1

/-- State of the earlier `InputManager` revision (the one whose `setMode`
emits the `modechange` event), together with the cursor position it reads
through `this.cursor.getPosition()`. -/
structure State where
  mode : String
  currentIndex : Nat
  focusedElement : Option Nat
  focusables : List Focusable
  cursorPos : Point
  cursorFocused : Option Nat
deriving DecidableEq

/-- Source `setMode(mode)` of the revision that emits: when the mode differs it
stores it and emits `modechange`; otherwise nothing happens.  The `Bool`
records whether `modechange` was emitted. -/
def setMode (st : State) (m : String) : State × Bool :=
  if st.mode ≠ m then ({ st with mode := m }, true) else (st, false)

/-- Source `clearFocus()` (identical to the current revision; emits nothing). -/
def clearFocus (st : State) : State :=
  match st.focusedElement with
  | none => st
  | some j =>
      { st with cursorFocused := none,
                focusables := setFlag st.focusables j false,
                focusedElement := none }

/-- Marking half of `setFocusedElement` (emits nothing). -/
def markFocused (st : State) (i : Nat) : State :=
  { st with focusedElement := some i,
            focusables := setFlag st.focusables i true,
            cursorFocused := some i,
            currentIndex := i }

/-- Source `setFocusedElement(element)` (emits nothing). -/
def setFocusedElement (st : State) (i : Nat) : State :=
  markFocused
    (if st.focusedElement.isSome ∧ st.focusedElement ≠ some i
     then clearFocus st else st) i

/-- Source `isPointInElement(x, y, focusable)`: bounding-box containment. -/
def isPointInElement (p : Point) (f : Focusable) : Bool :=
  decide (f.rect.left ≤ p.x ∧ p.x ≤ f.rect.right ∧
          f.rect.top ≤ p.y ∧ p.y ≤ f.rect.bottom)

/-- Source `getFocusableAtPoint(x, y)`: first focusable containing the point. -/
def getFocusableAtPoint (fs : List Focusable) (p : Point) : Option Nat :=
  findIndex (isPointInElement p) fs

/-- Source `handleCursorMove()` of the revision: hit-test the cursor position;
focus a newly hit element, or clear focus when the cursor left the
focused element's box. -/
def handleCursorMove (st : State) : State :=
  match getFocusableAtPoint st.focusables st.cursorPos with
  | some i =>
      if st.focusedElement ≠ some i then setFocusedElement st i else st
  | none =>
      match st.focusedElement with
      | some j =>
          match st.focusables.get? j with
          | some f =>
              if ¬ isPointInElement st.cursorPos f then clearFocus st
              else st
          | none => st
      | none => st

/-- Source `navigate(key)` of the revision: arrows/Tab wrap the index
(`% 0` on an empty list throws in JS after partially clearing state, as
in the current revision); other keys focus a matching identifier and are
a silent no-op when nothing matches. -/
def navigate (st : State) (k : String) : State :=
  if k = "ArrowRight" ∨ k = "Tab" then
    match st.focusables.length with
    | 0 => { clearFocus st with focusedElement := none }
    | Nat.succ _ =>
        setFocusedElement st ((st.currentIndex + 1) % st.focusables.length)
  else if k = "ArrowLeft" then
    match st.focusables.length with
    | 0 => { clearFocus st with focusedElement := none }
    | Nat.succ _ =>
        setFocusedElement st
          ((st.currentIndex + st.focusables.length - 1) %
            st.focusables.length)
  else
    match findIndex (fun s => s == k)
            (st.focusables.map (fun f => toString f.getIdentifier)) with
    | some i => setFocusedElement st i
    | none => st

/-- The `keydown` handler (`handleInput`): `Escape` clears focus, `Enter`
only logs, anything else sets keyboard mode (possibly emitting
`modechange`) and navigates. -/
def handleInput (st : State) (k : String) : State × Bool :=
  if k = "Escape" then (clearFocus st, false)
  else if k = "Enter" then (st, false)
  else (navigate (setMode st "keyboard").1 k, (setMode st "keyboard").2)

/-- An input signal of the revision: `mousemove` (whose listener only
calls `setMode("mouse")`), `cursormove`, or a `keydown`. -/
inductive Sig where
  | mousemove
  | cursormove
  | keydown (k : String)
deriving DecidableEq

/-- Dispatch one signal; the `Bool` is whether `modechange` was emitted
while processing it. -/
def processSignal (st : State) (s : Sig) : State × Bool :=
  match s with
  | .mousemove => setMode st "mouse"
  | .cursormove => (handleCursorMove st, false)
  | .keydown k => handleInput st k

theorem clearFocus_mode (st : State) : (clearFocus st).mode = st.mode := by
  unfold clearFocus
  split <;> rfl

theorem setFocusedElement_mode (st : State) (i : Nat) :
    (setFocusedElement st i).mode = st.mode := by
  unfold setFocusedElement markFocused
  split
  · exact clearFocus_mode st
  · rfl

theorem handleCursorMove_mode (st : State) :
    (handleCursorMove st).mode = st.mode := by
  unfold handleCursorMove
  split
  · split
    · exact setFocusedElement_mode st _
    · rfl
  · split
    · split
      · split
        · exact clearFocus_mode st
        · rfl
      · rfl
    · rfl

theorem navigate_mode (st : State) (k : String) :
    (navigate st k).mode = st.mode := by
  unfold navigate
  split
  · split
    · exact clearFocus_mode st
    · exact setFocusedElement_mode st _
  · split
    · split
      · exact clearFocus_mode st
      · exact setFocusedElement_mode st _
    · split
      · exact setFocusedElement_mode st _
      · rfl

end V1

/-- C8: a signal's processing emits `modechange` exactly when the mode it
leaves behind differs from the mode it started with — `setMode`'s guard
fires only on an actual switch, and no other part of any handler emits
`modechange` or touches `mode`. -/
theorem modechange_iff_mode_switch (st : V1.State) (s : V1.Sig) :
    (V1.processSignal st s).2 = true ↔
      (V1.processSignal st s).1.mode ≠ st.mode := by
  cases s with
  | mousemove =>
    simp only [V1.processSignal]
    unfold V1.setMode
    split
    · next h =>
      simpa using (Ne.symm h)
    · next h =>
      push_neg at h
      simp [h]
  | cursormove =>
    simp [V1.processSignal, V1.handleCursorMove_mode]
  | keydown k =>
    simp only [V1.processSignal]
    unfold V1.handleInput
    by_cases hk : k = "Escape"
    · rw [if_pos hk]
      simp [V1.clearFocus_mode]
    · rw [if_neg hk]
      by_cases hk2 : k = "Enter"
      · rw [if_pos hk2]
        simp
      · rw [if_neg hk2]
        simp only [V1.navigate_mode]
        unfold V1.setMode
        split
        · next h =>
          simpa using (Ne.symm h)
        · next h =>
          push_neg at h
          simp [h]

/-- A subscriber stored in `this.events[event]`: either a directly
registered callback or the fresh `onceWrapper` closure created by
`once()`.  The `Nat` stands for the JS function object's identity. -/
inductive Handler where
  | plain (id : Nat)
  | once (id : Nat)
deriving DecidableEq

/-- Whether the handler is a `onceWrapper`. -/
def Handler.isOnce : Handler → Bool
  | .plain _ => false
  | .once _ => true

/-- The `EventEmitter`'s `this.events` object: event name → ordered array
of subscribers (a missing key behaves as the empty array; `off`'s
delete-when-empty cleanup is observationally the same). -/
structure EventEmitter where
  events : String → List Handler

/-- Source `on(event, callback)`: push onto the event's array. -/
def EventEmitter.on (em : EventEmitter) (ev : String) (h : Handler) :
    EventEmitter :=
  ⟨fun e => if e = ev then em.events e ++ [h] else em.events e⟩

/-- Source `off(event, callback)`: filter out every stored occurrence. -/
def EventEmitter.off (em : EventEmitter) (ev : String) (h : Handler) :
    EventEmitter :=
  ⟨fun e => if e = ev then (em.events e).filter (fun c => c != h)
            else em.events e⟩

/-- Source `emit(event, ...args)`: `forEach` walks the array snapshot taken when
`emit` starts, invoking every subscriber once, in order (the returned
list is that invocation trace).  Each `onceWrapper` then calls
`off(event, onceWrapper)` on itself after running its callback, so once
the emit completes, exactly the once-wrappers have been removed from the
event's array; other events are untouched. -/
def EventEmitter.emit (em : EventEmitter) (ev : String) :
    List Handler × EventEmitter :=
  (em.events ev,
   ⟨fun e => if e = ev then (em.events e).filter (fun h => ! h.isOnce)
             else em.events e⟩)

/-- Source `once(event, callback)`: register a fresh `onceWrapper` around the
callback. -/
def EventEmitter.once (em : EventEmitter) (ev : String) (c : Nat) :
    EventEmitter :=
  em.on ev (.once c)

/-- Run a sequence of `emit` calls, concatenating the invocation traces.
Callbacks are opaque identities here: the model covers handlers that do
not re-enter the emitter (the single-threaded event-loop usage in this
program). -/
def runEmits (em : EventEmitter) : List String → List Handler × EventEmitter
  | [] => ([], em)
  | ev :: evs =>
      ((em.emit ev).1 ++ (runEmits (em.emit ev).2 evs).1,
       (runEmits (em.emit ev).2 evs).2)

theorem count_filter_not_isOnce (l : List Handler) (w : Nat) :
    (l.filter (fun h => ! h.isOnce)).count (Handler.once w) = 0 := by
  rw [List.count_eq_zero]
  intro hmem
  have := List.of_mem_filter hmem
  simp [Handler.isOnce] at this

theorem not_mem_filter_subset {l : List Handler} {h : Handler}
    (hl : h ∉ l) (p : Handler → Bool) : h ∉ l.filter p := by
  intro hmem
  exact hl (List.mem_of_mem_filter hmem)

theorem runEmits_once_count (ev : String) (w : Nat) :
    ∀ (evs : List String) (em : EventEmitter),
      (∀ e, e ≠ ev → Handler.once w ∉ em.events e) →
      ((runEmits em evs).1.count (Handler.once w) +
          ((runEmits em evs).2.events ev).count (Handler.once w) ≤
        (em.events ev).count (Handler.once w)) ∧
      (∀ e, e ≠ ev → Handler.once w ∉ (runEmits em evs).2.events e) ∧
      (ev ∈ evs →
        ((runEmits em evs).2.events ev).count (Handler.once w) = 0) := by
  intro evs
  induction evs with
  | nil =>
    intro em hside
    refine ⟨by simp [runEmits], ?_, by simp⟩
    intro e he
    simpa [runEmits] using hside e he
  | cons e evs ih =>
    intro em hside
    by_cases he : e = ev
    · subst he
      have hside1 : ∀ e', e' ≠ e →
          Handler.once w ∉ ((em.emit e).2).events e' := by
        intro e' he'
        simpa [EventEmitter.emit, he'] using hside e' he'
      have hcnt1 : (((em.emit e).2).events e).count (Handler.once w) = 0 := by
        show ((if e = e then (em.events e).filter (fun h => ! h.isOnce)
              else em.events e)).count (Handler.once w) = 0
        rw [if_pos rfl]
        exact count_filter_not_isOnce _ w
      obtain ⟨hsum, hside2, _⟩ := ih ((em.emit e).2) hside1
      rw [hcnt1] at hsum
      have htr : ((em.emit e).1).count (Handler.once w) =
          (em.events e).count (Handler.once w) := rfl
      refine ⟨?_, ?_, ?_⟩
      · simp only [runEmits, List.count_append, htr]
        omega
      · intro e' he'
        simp only [runEmits]
        exact hside2 e' he'
      · intro _
        simp only [runEmits]
        omega
    · have hside1 : ∀ e', e' ≠ ev →
          Handler.once w ∉ ((em.emit e).2).events e' := by
        intro e' he'
        by_cases hee : e' = e
        · subst hee
          simp only [EventEmitter.emit, if_pos rfl]
          exact not_mem_filter_subset (hside e' he') _
        · simpa [EventEmitter.emit, hee] using hside e' he'
      have hcnt1 : (((em.emit e).2).events ev).count (Handler.once w) =
          (em.events ev).count (Handler.once w) := by
        show ((if ev = e then (em.events ev).filter (fun h => ! h.isOnce)
              else em.events ev)).count (Handler.once w) = _
        rw [if_neg (Ne.symm he)]
      have htr : ((em.emit e).1).count (Handler.once w) = 0 := by
        rw [List.count_eq_zero]
        show Handler.once w ∉ em.events e
        exact hside e he
      obtain ⟨hsum, hside2, hmem⟩ := ih ((em.emit e).2) hside1
      rw [hcnt1] at hsum
      refine ⟨?_, ?_, ?_⟩
      · simp only [runEmits, List.count_append, htr]
        omega
      · intro e' he'
        simp only [runEmits]
        exact hside2 e' he'
      · intro hev
        rcases List.mem_cons.mp hev with h1 | h1
        · exact absurd h1.symm he
        · simp only [runEmits]
          exact hmem h1

/-- C10: a callback registered through `once` (its wrapper is fresh: not
yet stored under any event) is invoked at most once across any sequence
of `emit` calls, and once an emit of its event has happened the wrapper
is stored nowhere, so later emits cannot invoke it again. -/
theorem once_fires_at_most_once (em : EventEmitter) (ev : String) (w : Nat)
    (hfresh : ∀ e, Handler.once w ∉ em.events e) (evs : List String) :
    ((runEmits (em.once ev w) evs).1.count (Handler.once w) ≤ 1) ∧
    (ev ∈ evs →
      ∀ e, Handler.once w ∉ ((runEmits (em.once ev w) evs).2.events e)) := by
  have hside : ∀ e, e ≠ ev →
      Handler.once w ∉ (em.once ev w).events e := by
    intro e he
    simpa [EventEmitter.once, EventEmitter.on, he] using hfresh e
  have hcnt : ((em.once ev w).events ev).count (Handler.once w) = 1 := by
    simp [EventEmitter.once, EventEmitter.on, List.count_append]
    rw [List.count_eq_zero]
    exact hfresh ev
  obtain ⟨hsum, hside2, hmem⟩ := runEmits_once_count ev w evs (em.once ev w)
    hside
  rw [hcnt] at hsum
  refine ⟨by omega, ?_⟩
  intro hev e
  by_cases he : e = ev
  · subst he
    rw [← List.count_eq_zero]
    have h0 := hmem hev
    omega
  · exact hside2 e he

/-- An emitter with no subscribers at all. -/
def em0 : EventEmitter := ⟨fun _ => []⟩

/-- Witness for C10: a fresh once-wrapper on `"modechange"`, emitted
twice plus an unrelated event, fires at most once. -/
theorem once_fires_at_most_once_witness :
    (runEmits (em0.once "modechange" 7)
        ["modechange", "modechange", "input"]).1.count (Handler.once 7)
      ≤ 1 :=
  (once_fires_at_most_once em0 "modechange" 7
    (fun e => by simp [em0]) ["modechange", "modechange", "input"]).1
